import Mathlib

/-!
Verification of the request-handling core in `src/lib/index.js` (the sapper
server middleware).  Each JavaScript function of the source is given a
shallow embedding below; definitions keep the source's names.  JavaScript
strings are modelled as Lean `String` (or `List Char` where character-level
processing — regex replace, split/join — must be traced), JavaScript
`undefined`/absent values as `Option`, and JavaScript object-property lookup
as association-list lookup (`js_get`).
-/

namespace Sapper

/-! ## Pathname normalization — `set_req_pathname` (src/lib/index.js lines 114-117)

The source sets `req.pathname = req.url.replace(/\?.+/, '')`.  The regex
matches the first `?` that is followed by at least one character and greedily
consumes the rest of the string; a `?` that is the final character matches
nothing, so the url is kept unchanged.  HTTP request URLs cannot contain line
terminators (Node's parser rejects them before the middleware runs), so the
regex dot is modelled as matching every character. -/

/-- Character-level model of `url.replace(/\?.+/, '')`: walk to the first
`?`; if at least one character follows it, drop the `?` and everything
after it, otherwise keep the string as it is. -/
def strip_query : List Char → List Char
  | [] => []
  | c :: rest =>
    if c = '?' then (if rest.isEmpty then c :: rest else [])
    else c :: strip_query rest

/-- The request object: the raw url (never written by this middleware) and
the derived pathname (absent until `set_req_pathname` runs). -/
structure Req where
  url : String
  pathname : Option String

/-- Model of `set_req_pathname(req, res, next)`: assigns `req.pathname` and
unconditionally calls `next()` (the returned `Bool` is `true` exactly when
`next` was invoked). -/
def set_req_pathname (req : Req) : Req × Bool :=
  ({ req with pathname := some (String.mk (strip_query req.url.data)) }, true)

/-! ## Route matching — `find_route` (src/lib/index.js lines 196-220)

The dispatcher loops over `route_manager.routes` in registration order and
dispatches the first route whose `test` accepts the pathname; when no route
matches it calls `next()` (falling through to the not-found handler). -/

inductive RouteType where
  | page
  | endpoint
deriving DecidableEq

/-- A compiled route: identifier, kind, and the pattern-test predicate.
Routes are immutable and owned by the ordered route table. -/
structure Route where
  id : String
  type : RouteType
  test : String → Bool

/-- What the matching loop does with a request: dispatch one route, or call
the next-handler continuation. -/
inductive FindOutcome where
  | dispatch (r : Route)
  | next

/-- Model of the loop in `find_route`: scan the route table in order and
dispatch the first route whose `test` accepts the url; no match means
`next()`. -/
def find_route : List Route → String → FindOutcome
  | [], _ => FindOutcome.next
  | r :: rest, url =>
    if r.test url then FindOutcome.dispatch r else find_route rest url

/-- Example route table entries used by concrete witnesses: a catch-all
pattern registered before a more specific one (the catch-all's predicate
matches a superset of the other's). -/
def route_catch_all : Route :=
  { id := ("catch_all"), type := RouteType.page, test := fun _ => true }

/-- The specific route registered after `route_catch_all`. -/
def route_about : Route :=
  { id := ("about"), type := RouteType.page, test := fun url => url == ("/about") }

end Sapper

namespace Sapper

/-- C10 helper: a query-free string is left unchanged by `strip_query`. -/
theorem strip_query_no_question (a : List Char) (ha : ('?' ∈ a) → False) :
    strip_query a = a := by
  induction a with
  | nil => rfl
  | cons c rest ih =>
    have hc : ¬ c = '?' := fun h => ha (h ▸ List.mem_cons_self c rest)
    simp only [strip_query, if_neg hc]
    exact congrArg (c :: ·) (ih fun h => ha (List.mem_cons_of_mem c h))

/-- C10 helper: on a url whose first `?` sits at the end of `a`, the result
is `a` when at least one character follows the `?`, and the unchanged url
when the `?` is the final character. -/
theorem strip_query_split (a b : List Char) (ha : ('?' ∈ a) → False) :
    strip_query (a ++ '?' :: b) = (if b.isEmpty then a ++ ['?'] else a) := by
  induction a with
  | nil =>
    simp only [List.nil_append, strip_query, if_pos rfl]
    cases b <;> simp [List.isEmpty]
  | cons c rest ih =>
    have hc : ¬ c = '?' := fun h => ha (h ▸ List.mem_cons_self c rest)
    have ih' := ih fun h => ha (List.mem_cons_of_mem c h)
    by_cases hb : b.isEmpty <;> simp [strip_query, hc, ih', hb]

end Sapper

/-- C10: `set_req_pathname` assigns `req.pathname` to `req.url` with the
substring starting at the first `?` removed only when at least one character
follows that `?`; a url whose final character is its only `?` is left
unchanged; `req.url` itself is never modified and `next()` is always
invoked.  (The split `url = a ++ '?' :: b` with `?`-free `a` isolates the
first `?` of the url; `?`-free urls are covered by the last conjunct.) -/
theorem sapper_C10_strip_query_first_question (a b : List Char) (req : Sapper.Req) :
    ((('?' ∈ a) → False) →
        Sapper.strip_query (a ++ '?' :: b) = (if b.isEmpty then a ++ ['?'] else a)) ∧
      ((('?' ∈ a) → False) → Sapper.strip_query a = a) ∧
      (Sapper.set_req_pathname req).1.url = req.url ∧
      (Sapper.set_req_pathname req).1.pathname
          = some (String.mk (Sapper.strip_query req.url.data)) ∧
      (Sapper.set_req_pathname req).2 = true :=
  ⟨fun ha => Sapper.strip_query_split a b ha,
   fun ha => Sapper.strip_query_no_question a ha,
   rfl, rfl, rfl⟩

/-- C1: the route dispatcher selects exactly the first route in registration
order whose `test` accepts the pathname; if no route's predicate accepts it,
the dispatcher invokes the next-handler continuation. -/
theorem sapper_C1_find_route_first_match (routes : List Sapper.Route) (url : String) :
    (Sapper.find_route routes url = Sapper.FindOutcome.next
        ↔ ∀ r ∈ routes, r.test url = false) ∧
      (∀ r, Sapper.find_route routes url = Sapper.FindOutcome.dispatch r →
        r.test url = true ∧
          ∃ pre post, routes = pre ++ r :: post ∧ ∀ q ∈ pre, q.test url = false) := by
  induction routes with
  | nil =>
    refine ⟨⟨fun _ => by simp, fun _ => rfl⟩, fun r h => by cases h⟩
  | cons r0 rest ih =>
    by_cases h0 : r0.test url
    · constructor
      · constructor
        · intro h
          rw [Sapper.find_route, if_pos h0] at h
          cases h
        · intro h
          exact absurd h0 (by simp [h r0 (List.mem_cons_self r0 rest)])
      · intro r h
        rw [Sapper.find_route, if_pos h0] at h
        cases h
        exact ⟨h0, [], rest, rfl, by simp⟩
    · have hrec : Sapper.find_route (r0 :: rest) url = Sapper.find_route rest url := by
        rw [Sapper.find_route, if_neg h0]
      constructor
      · rw [hrec, ih.1]
        constructor
        · intro h r hr
          rcases List.mem_cons.mp hr with rfl | hr
          · exact Bool.eq_false_iff.mpr h0
          · exact h r hr
        · intro h r hr
          exact h r (List.mem_cons_of_mem r0 hr)
      · intro r h
        rw [hrec] at h
        obtain ⟨ht, pre, post, hsplit, hpre⟩ := ih.2 r h
        refine ⟨ht, r0 :: pre, post, by rw [hsplit, List.cons_append], ?_⟩
        intro q hq
        rcases List.mem_cons.mp hq with rfl | hq
        · exact Bool.eq_false_iff.mpr h0
        · exact hpre q hq

/-- C1 witness: with the catch-all registered before the specific route and
a url both predicates accept, the catch-all is dispatched
(registration-order precedence), and an unmatched url falls through. -/
theorem sapper_C1_witness :
    Sapper.route_catch_all.test ("/about") = true ∧
      (∃ pre post,
          [Sapper.route_catch_all, Sapper.route_about]
              = pre ++ Sapper.route_catch_all :: post ∧
            ∀ q ∈ pre, q.test ("/about") = false) ∧
      Sapper.find_route [Sapper.route_about] ("/nope") = Sapper.FindOutcome.next := by
  have h := (sapper_C1_find_route_first_match
    [Sapper.route_catch_all, Sapper.route_about] ("/about")).2
    Sapper.route_catch_all rfl
  refine ⟨h.1, h.2, ?_⟩
  exact (sapper_C1_find_route_first_match [Sapper.route_about] ("/nope")).1.mpr
    (by
      intro r hr
      rw [List.mem_singleton.mp hr]
      decide)

namespace Sapper

/-! ## Handler chain — `compose_handlers` (src/lib/index.js lines 238-256)

The composed middleware keeps a private cursor `i` starting at 0; each
handler receives a `proceed` continuation that increments the cursor by one
and re-enters the loop; when the cursor moves past the last handler the
externally supplied fallback continuation `next` is invoked.  A handler is
modelled by what it does with the request/response state: return `none` to
terminate the chain (it owns the response) or `some s` to call `proceed`
with the state it produced. -/

def Handler (σ : Type) : Type := σ → Option σ

/-- Observable events of one run of the composed handler: handler `i`
started, handler `i` invoked its `proceed` continuation, or the fallback
continuation was invoked. -/
inductive ChainEvent where
  | started (i : Nat)
  | proceeded (i : Nat)
  | fellback
deriving DecidableEq

/-- Model of the inner `go()` loop of `compose_handlers`, instrumented with
the event trace: `handlers[i]` missing means the cursor moved past the end,
so the fallback fires (`true`); otherwise handler `i` runs, and only if it
proceeds does the loop re-enter at cursor `i + 1`. -/
def run_chain {σ : Type} : List (Handler σ) → Nat → σ → List ChainEvent × Bool
  | [], _, _ => ([ChainEvent.fellback], true)
  | h :: rest, i, s =>
    match h s with
    | none => ([ChainEvent.started i], false)
    | some s1 =>
      (ChainEvent.started i :: ChainEvent.proceeded i :: (run_chain rest (i + 1) s1).1,
        (run_chain rest (i + 1) s1).2)

/-- Model of `compose_handlers(handlers)` applied to one request: the cursor
starts at the first handler. -/
def compose_handlers {σ : Type} (handlers : List (Handler σ)) (s : σ) :
    List ChainEvent × Bool :=
  run_chain handlers 0 s

/-- The strictly sequential trace of `k` handlers that each started and then
proceeded, beginning at cursor position `base`. -/
def seq_trace : Nat → Nat → List ChainEvent
  | _, 0 => []
  | base, k + 1 =>
    ChainEvent.started base :: ChainEvent.proceeded base :: seq_trace (base + 1) k

/-- How many times the fallback continuation fired in a trace. -/
def count_fb : List ChainEvent → Nat
  | [] => 0
  | ChainEvent.fellback :: rest => count_fb rest + 1
  | _ :: rest => count_fb rest

theorem count_fb_append (l m : List ChainEvent) :
    count_fb (l ++ m) = count_fb l + count_fb m := by
  induction l with
  | nil => simp [count_fb]
  | cons e rest ih =>
    cases e
    · simp [count_fb, ih]
    · simp [count_fb, ih]
    · simp [count_fb, ih]
      omega

theorem count_fb_seq_trace (base k : Nat) : count_fb (seq_trace base k) = 0 := by
  induction k generalizing base with
  | zero => rfl
  | succ k ih => simp [seq_trace, count_fb, ih]

/-- Shape of every run of the chain: some prefix of `k` handlers each
started and proceeded in cursor order, after which either handler `k`
started and terminated the chain, or the cursor exhausted the sequence and
the fallback fired. -/
theorem run_chain_spec {σ : Type} (handlers : List (Handler σ)) (i : Nat) (s : σ) :
    ∃ k, k ≤ handlers.length ∧
      (((run_chain handlers i s).2 = true ∧ k = handlers.length ∧
          (run_chain handlers i s).1 = seq_trace i k ++ [ChainEvent.fellback]) ∨
        ((run_chain handlers i s).2 = false ∧ k < handlers.length ∧
          (run_chain handlers i s).1 = seq_trace i k ++ [ChainEvent.started (i + k)])) := by
  induction handlers generalizing i s with
  | nil => exact ⟨0, Nat.le_refl 0, Or.inl ⟨rfl, rfl, rfl⟩⟩
  | cons h rest ih =>
    match hh : h s with
    | none =>
      refine ⟨0, Nat.zero_le _, Or.inr ?_⟩
      simp [run_chain, hh, seq_trace]
    | some s1 =>
      obtain ⟨k, hk, hcase⟩ := ih (i + 1) s1
      refine ⟨k + 1, by simpa using Nat.succ_le_succ hk, ?_⟩
      rcases hcase with ⟨hb, hlen, htr⟩ | ⟨hb, hlen, htr⟩
      · exact Or.inl ⟨by simp [run_chain, hh, hb],
          by simp [hlen],
          by simp [run_chain, hh, htr, seq_trace]⟩
      · refine Or.inr ⟨by simp [run_chain, hh, hb],
          by simpa using Nat.succ_lt_succ hlen, ?_⟩
        have harith : i + 1 + k = i + (k + 1) := by omega
        simp [run_chain, hh, htr, seq_trace, harith]

end Sapper

/-- C3: the composed handler executes the handlers strictly sequentially —
its trace is `started 0, proceeded 0, started 1, proceeded 1, …` for some
prefix of `k` handlers (so handler `N + 1` starts only after handler `N`
proceeds, and the cursor advances by exactly one per proceed), terminated
either by the fallback (exactly once, when the cursor moved past the last
handler) or by handler `k` declining to proceed (then the fallback never
fires). -/
theorem sapper_C3_compose_handlers_sequential {σ : Type}
    (handlers : List (Sapper.Handler σ)) (s : σ) :
    ∃ k, k ≤ handlers.length ∧
      (((Sapper.compose_handlers handlers s).2 = true ∧ k = handlers.length ∧
          (Sapper.compose_handlers handlers s).1
              = Sapper.seq_trace 0 k ++ [Sapper.ChainEvent.fellback]) ∨
        ((Sapper.compose_handlers handlers s).2 = false ∧ k < handlers.length ∧
          (Sapper.compose_handlers handlers s).1
              = Sapper.seq_trace 0 k ++ [Sapper.ChainEvent.started k])) ∧
      Sapper.count_fb (Sapper.compose_handlers handlers s).1
          = (if (Sapper.compose_handlers handlers s).2 then 1 else 0) := by
  obtain ⟨k, hk, hcase⟩ := Sapper.run_chain_spec handlers 0 s
  refine ⟨k, hk, ?_, ?_⟩
  · rcases hcase with ⟨hb, hlen, htr⟩ | ⟨hb, hlen, htr⟩
    · exact Or.inl ⟨hb, hlen, htr⟩
    · refine Or.inr ⟨hb, hlen, ?_⟩
      simpa using htr
  · rcases hcase with ⟨hb, hlen, htr⟩ | ⟨hb, hlen, htr⟩ <;>
      simp [Sapper.compose_handlers] at hb htr ⊢ <;>
      simp [hb, htr, Sapper.count_fb_append, Sapper.count_fb_seq_trace, Sapper.count_fb]

namespace Sapper

/-! ## Endpoint dispatch — `handle_route`, else-branch (src/lib/index.js lines 181-193)

For a matched non-page route the dispatcher lower-cases the request method,
substitutes `del` for `delete` (the word `delete` cannot be exported from a
module because it is a keyword), looks the result up among the loaded
module's exports, and either invokes the export with
`(request, response, proceed)` or — when the export is absent — calls
`next()` so the request falls through to the 404 handler. -/

/-- JavaScript object property read: the value under the key, or `undefined`
(`none`) when absent. -/
def js_get {β : Type} : List (String × β) → String → Option β
  | [], _ => none
  | (k, v) :: rest, key => if k = key then some v else js_get rest key

/-- ASCII lower-casing of one character, as `String.prototype.toLowerCase`
acts on HTTP method names. -/
def js_lower_char (c : Char) : Char :=
  if 'A' ≤ c ∧ c ≤ 'Z' then Char.ofNat (c.toNat + 32) else c

/-- Model of `req.method.toLowerCase()`. -/
def js_to_lower (s : String) : String :=
  String.mk (s.data.map js_lower_char)

/-- The export name resolved for a request method:
`const method_export = method === 'delete' ? 'del' : method` after
lower-casing. -/
def method_export (method : String) : String :=
  let lower := js_to_lower method
  if lower = ("delete") then ("del") else lower

/-- What the endpoint branch does: hand the request, response and `proceed`
continuation to the module's export, or call `next()`. -/
inductive EndpointOutcome (η : Type) where
  | invoke (h : η)
  | next
deriving DecidableEq

/-- Model of the endpoint branch of `handle_route`: look up the resolved
export name among the module's exports; present means the handler is invoked
and owns the response, absent means `next()` (a 404 fallthrough, never a
405). -/
def handle_endpoint {η : Type} (exports : List (String × η)) (method : String) :
    EndpointOutcome η :=
  match js_get exports (method_export method) with
  | some h => EndpointOutcome.invoke h
  | none => EndpointOutcome.next

/-! ## Serialization fallback — `try_serialize` (src/lib/index.js lines 262-268)
and the `scripts` slot (lines 154-162)

The external `serialize-javascript` call is modelled as an arbitrary
fallible function (`Except`): `try_serialize` converts a thrown exception
into `null` and never re-raises.  The `scripts` slot emits the inline
`__SAPPER__` initialization script before the main entry script tag exactly
when the serialized form is truthy (`null` from a failed serialization — or
an empty string — falls back to the bare main entry script tag). -/

/-- Model of `try_serialize`: a thrown exception becomes `null`. -/
def try_serialize {α ε : Type} (serialize : α → Except ε String) (data : α) :
    Option String :=
  match serialize data with
  | Except.ok s => some s
  | Except.error _ => none

/-- The main entry script tag `<script src='${client.main_file}'></script>`. -/
def main_script_tag (main_file : String) : String :=
  ("<script src=\x27") ++ main_file ++ ("\x27></script>")

/-- The inline `__SAPPER__` initialization script wrapping a serialized
preload payload. -/
def sapper_inline (serialized : String) : String :=
  ("<script>__SAPPER__ = \x7b preloaded: ") ++ serialized ++ (" \x7d;</script>")

/-- Model of the `scripts` slot computation in `handle_route`: with a truthy
`serialized` value the inline initialization script precedes the main entry
script tag, otherwise only the main entry script tag is emitted. -/
def scripts_slot (serialized : Option String) (main_file : String) : String :=
  match serialized with
  | some s => if s.isEmpty then main_script_tag main_file
      else sapper_inline s ++ main_script_tag main_file
  | none => main_script_tag main_file

end Sapper

/-- C4: the endpoint dispatcher resolves the export name as the lower-cased
method with the single substitution `DELETE ↦ del`; a present export is
invoked (and owns the response), an absent export makes the dispatcher call
the next-handler continuation (falling through to the 404 page, never a
405). -/
theorem sapper_C4_endpoint_method_dispatch {η : Type}
    (exports : List (String × η)) (method : String) :
    Sapper.method_export ("DELETE") = ("del") ∧
      (∀ m, (Sapper.js_to_lower m = ("delete") → False) →
        Sapper.method_export m = Sapper.js_to_lower m) ∧
      (∀ h, Sapper.js_get exports (Sapper.method_export method) = some h →
        Sapper.handle_endpoint exports method = Sapper.EndpointOutcome.invoke h) ∧
      (Sapper.js_get exports (Sapper.method_export method) = none →
        Sapper.handle_endpoint exports method = Sapper.EndpointOutcome.next) := by
  refine ⟨by decide, fun m hm => ?_, fun h hh => ?_, fun hn => ?_⟩
  · simp only [Sapper.method_export]
    rw [if_neg hm]
  · simp [Sapper.handle_endpoint, hh]
  · simp [Sapper.handle_endpoint, hn]

/-- C4 witness: a `DELETE` request reaches the export named `del`, a method
without a matching export falls through to `next`, and an ordinary method
maps to its plain lower-casing. -/
theorem sapper_C4_witness :
    Sapper.handle_endpoint [(("del"), 1)] ("DELETE") = Sapper.EndpointOutcome.invoke 1 ∧
      Sapper.handle_endpoint ([] : List (String × Nat)) ("GET")
          = Sapper.EndpointOutcome.next ∧
      Sapper.method_export ("PATCH") = ("patch") := by
  refine ⟨(sapper_C4_endpoint_method_dispatch [(("del"), 1)] ("DELETE")).2.2.1 1 (by decide),
    (sapper_C4_endpoint_method_dispatch ([] : List (String × Nat)) ("GET")).2.2.2 (by decide),
    ?_⟩
  have := (sapper_C4_endpoint_method_dispatch ([] : List (String × Nat)) ("PATCH")).2.1
    ("PATCH") (by decide)
  rw [this]
  decide

/-- C5: a failed serialization of the preloaded data never propagates an
error — `try_serialize` turns a thrown exception into `null` and the
`scripts` slot degrades to exactly the bare main entry script tag — while a
(nonempty) successful serialization yields the inline `__SAPPER__`
initialization script followed by the main entry script tag. -/
theorem sapper_C5_serialization_fallback {α ε : Type}
    (serialize : α → Except ε String) (data : α) (main_file : String) :
    ((∃ e, serialize data = Except.error e) →
        Sapper.try_serialize serialize data = none ∧
          Sapper.scripts_slot (Sapper.try_serialize serialize data) main_file
              = Sapper.main_script_tag main_file) ∧
      (∀ s, serialize data = Except.ok s → s.isEmpty = false →
        Sapper.try_serialize serialize data = some s ∧
          Sapper.scripts_slot (Sapper.try_serialize serialize data) main_file
              = Sapper.sapper_inline s ++ Sapper.main_script_tag main_file) := by
  constructor
  · rintro ⟨e, he⟩
    simp [Sapper.try_serialize, he, Sapper.scripts_slot]
  · intro s hs hne
    simp [Sapper.try_serialize, hs, Sapper.scripts_slot, hne]

/-- C5 witness: a serializer that throws on the given data yields the bare
main entry script tag; one that succeeds yields the inline initialization
script followed by the main entry script tag. -/
theorem sapper_C5_witness :
    Sapper.scripts_slot
        (Sapper.try_serialize (fun _ : Nat => (Except.error () : Except Unit String)) 0)
        ("/client/main.js")
      = Sapper.main_script_tag ("/client/main.js") ∧
    Sapper.scripts_slot
        (Sapper.try_serialize
          (fun _ : Nat => (Except.ok ("\x7b\x7d") : Except Unit String)) 0)
        ("/client/main.js")
      = Sapper.sapper_inline ("\x7b\x7d")
          ++ Sapper.main_script_tag ("/client/main.js") :=
  ⟨((sapper_C5_serialization_fallback
      (fun _ : Nat => (Except.error () : Except Unit String)) 0
      ("/client/main.js")).1 ⟨(), rfl⟩).2,
   ((sapper_C5_serialization_fallback
      (fun _ : Nat => (Except.ok ("\x7b\x7d") : Except Unit String)) 0
      ("/client/main.js")).2 ("\x7b\x7d") rfl rfl).2⟩

namespace Sapper

/-! ## Streaming slot order — `handle_route`, preload branch
(src/lib/index.js lines 153-166) with `templates.stream`

For a page route with `preload`, `handle_route` derives four asynchronous
slot values from one shared promise and hands them to `templates.stream`
in the fixed textual order `scripts, html, head, styles`.  `templates.js`
is not part of the staged sources, so the assembler itself is modelled from
the spec: each slot is flushed in the fixed order, a slot that finishes
computing early is buffered until every earlier slot has been written. -/

/-- The four named document slots. -/
inductive Slot where
  | scripts
  | html
  | head
  | styles
deriving DecidableEq

/-- The fixed order in which `handle_route` passes the slots to
`templates.stream` (src/lib/index.js lines 153-166). -/
def page_slots : List Slot := [Slot.scripts, Slot.html, Slot.head, Slot.styles]

/-- Modelled from the spec: the flushing step of `templates.stream` (its
code, `lib/templates.js`, is not under the staged sources).  Given the set
of slots whose computations have resolved, flush — in declared order — the
maximal prefix of the still-pending slots that are already resolved; the
first unresolved slot blocks everything after it. -/
def flush_ready (resolved : List Slot) : List Slot → List Slot × List Slot
  | [] => ([], [])
  | s :: rest =>
    if s ∈ resolved then
      (s :: (flush_ready resolved rest).1, (flush_ready resolved rest).2)
    else ([], s :: rest)

/-- State of one streaming response: which slot computations have resolved,
which slots are still pending in declared order, and the slots whose bytes
have been written to the stream, in write order. -/
structure StreamState where
  resolved : List Slot
  pending : List Slot
  written : List Slot

/-- Modelled from the spec: one completion event — a slot's computation
resolves, then every pending slot up to the first still-unresolved one is
flushed. -/
def stream_step (st : StreamState) (e : Slot) : StreamState :=
  { resolved := e :: st.resolved,
    pending := (flush_ready (e :: st.resolved) st.pending).2,
    written := st.written ++ (flush_ready (e :: st.resolved) st.pending).1 }

/-- A whole streaming run: the four slots start pending in the declared
order and the completion events arrive in an arbitrary order. -/
def stream_run (events : List Slot) : StreamState :=
  List.foldl stream_step
    { resolved := [], pending := page_slots, written := [] } events

theorem flush_ready_append (resolved l : List Slot) :
    (flush_ready resolved l).1 ++ (flush_ready resolved l).2 = l := by
  induction l with
  | nil => rfl
  | cons s rest ih =>
    by_cases hs : s ∈ resolved <;> simp [flush_ready, hs, ih]

theorem flush_ready_head (resolved l : List Slot) (x : Slot) (t : List Slot)
    (h : (flush_ready resolved l).2 = x :: t) : ¬ x ∈ resolved := by
  induction l with
  | nil => cases h
  | cons s rest ih =>
    by_cases hs : s ∈ resolved
    · exact ih (by simpa [flush_ready, hs] using h)
    · simp only [flush_ready, if_neg hs] at h
      cases h
      exact hs

/-- The invariant of a streaming run: what was written followed by what is
pending is the declared slot order, and the first pending slot has not
resolved. -/
def StreamInv (st : StreamState) : Prop :=
  st.written ++ st.pending = page_slots ∧
    ∀ x t, st.pending = x :: t → ¬ x ∈ st.resolved

theorem stream_step_inv (st : StreamState) (e : Slot) (h : StreamInv st) :
    StreamInv (stream_step st e) := by
  constructor
  · show (st.written ++ (flush_ready (e :: st.resolved) st.pending).1)
        ++ (flush_ready (e :: st.resolved) st.pending).2 = page_slots
    rw [List.append_assoc, flush_ready_append]
    exact h.1
  · intro x t hx
    exact flush_ready_head (e :: st.resolved) st.pending x t hx

theorem stream_run_inv_mem (events : List Slot) (st : StreamState)
    (h : StreamInv st) :
    StreamInv (List.foldl stream_step st events) ∧
      ∀ x, (x ∈ events ∨ x ∈ st.resolved) →
        x ∈ (List.foldl stream_step st events).resolved := by
  induction events generalizing st with
  | nil =>
    exact ⟨h, fun x hx => hx.resolve_left (fun hc => absurd hc (by simp))⟩
  | cons e rest ih =>
    obtain ⟨h1, h2⟩ := ih (stream_step st e) (stream_step_inv st e h)
    refine ⟨h1, fun x hx => h2 x ?_⟩
    rcases hx with hx | hx
    · rcases List.mem_cons.mp hx with rfl | hx
      · exact Or.inr (List.mem_cons_self x _)
      · exact Or.inl hx
    · exact Or.inr (List.mem_cons_of_mem e hx)

end Sapper

/-- C2: in the streamed page response the slots' bytes appear in the fixed
order scripts, html, head, styles regardless of the completion order of the
four underlying asynchronous computations: whatever has been written is
always a prefix of that fixed order (slot `N` is never written before slot
`N − 1`), and once all four computations have resolved the stream holds
exactly the four slots in the fixed order. -/
theorem sapper_C2_stream_slot_order (events : List Sapper.Slot) :
    (∃ rest, (Sapper.stream_run events).written ++ rest = Sapper.page_slots) ∧
      ((Sapper.Slot.scripts ∈ events ∧ Sapper.Slot.html ∈ events ∧
          Sapper.Slot.head ∈ events ∧ Sapper.Slot.styles ∈ events) →
        (Sapper.stream_run events).written = Sapper.page_slots) := by
  have hinv0 : Sapper.StreamInv
      { resolved := [], pending := Sapper.page_slots, written := [] } :=
    ⟨rfl, fun x t _ hc => absurd hc (by simp)⟩
  obtain ⟨⟨hsplit, hhead⟩, hres⟩ :=
    Sapper.stream_run_inv_mem events
      { resolved := [], pending := Sapper.page_slots, written := [] } hinv0
  refine ⟨⟨(Sapper.stream_run events).pending, hsplit⟩, fun hall => ?_⟩
  have hpend : (Sapper.stream_run events).pending = [] := by
    cases hp : (Sapper.stream_run events).pending with
    | nil => rfl
    | cons x t =>
      have hx : x ∈ (Sapper.stream_run events).resolved := by
        refine hres x (Or.inl ?_)
        cases x
        · exact hall.1
        · exact hall.2.1
        · exact hall.2.2.1
        · exact hall.2.2.2
      exact absurd hx (hhead x t hp)
  have hsplit' : (Sapper.stream_run events).written ++ (Sapper.stream_run events).pending
      = Sapper.page_slots := hsplit
  rw [← hsplit', hpend, List.append_nil]

/-- C2 witness: even when the `head` computation resolves before `scripts`
(completion order head, scripts, styles, html), the bytes appear in the
stream in the fixed order scripts, html, head, styles. -/
theorem sapper_C2_witness :
    (Sapper.stream_run
        [Sapper.Slot.head, Sapper.Slot.scripts, Sapper.Slot.styles, Sapper.Slot.html]).written
      = Sapper.page_slots :=
  (sapper_C2_stream_slot_order
    [Sapper.Slot.head, Sapper.Slot.scripts, Sapper.Slot.styles, Sapper.Slot.html]).2
    (by decide)

namespace Sapper

/-! ## Asset handlers — `get_asset_handler` (src/lib/index.js lines 119-128)
and the client-chunk instance (lines 93-98)

The factory builds a handler that checks only `opts.filter(req.pathname)`:
a rejected pathname delegates with `next()` and leaves the response
untouched; an accepted pathname sets the `Content-Type` and `Cache-Control`
headers to the fixed configured values and calls `res.end(opts.fn(pathname))`
unconditionally — there is no check that the resolver found anything, so a
pathname accepted by the predicate but absent from the asset cache is ended
with an `undefined` (empty) body instead of falling through. -/

/-- The mutable response object: status code (Node defaults it to 200),
headers (`setHeader` prepends, the reader sees the most recent value), the
body handed to `res.end`, and whether `end` was called. -/
structure Res (β : Type) where
  statusCode : Nat
  headers : List (String × String)
  body : Option β
  ended : Bool

/-- A response nothing has touched yet. -/
def fresh_res {β : Type} : Res β :=
  { statusCode := 200, headers := [], body := none, ended := false }

/-- Model of `res.setHeader(key, value)`. -/
def set_header {β : Type} (res : Res β) (key value : String) : Res β :=
  { res with headers := (key, value) :: res.headers }

/-- Model of `res.end(body)`: `body = none` is `res.end(undefined)`, an
empty-bodied termination. -/
def res_end {β : Type} (res : Res β) (body : Option β) : Res β :=
  { res with body := body, ended := true }

/-- The options record handed to `get_asset_handler`; `fn` returns `none`
where the JavaScript resolver yields `undefined` (a cache miss). -/
structure AssetOpts (β : Type) where
  filter : String → Bool
  type : String
  cache : String
  fn : String → Option β

/-- Model of the handler built by `get_asset_handler(opts)`: the returned
`Bool` is `true` exactly when `next()` was called. -/
def get_asset_handler {β : Type} (opts : AssetOpts β) (pathname : String)
    (res : Res β) : Res β × Bool :=
  if opts.filter pathname then
    (res_end
      (set_header (set_header res ("Content-Type") opts.type)
        ("Cache-Control") opts.cache)
      (opts.fn pathname), false)
  else (res, true)

/-- Character-level model of `pathname.startsWith(p)`. -/
def js_starts_with : List Char → List Char → Bool
  | _, [] => true
  | [], _ :: _ => false
  | c :: s, p :: ps => if c = p then js_starts_with s ps else false

/-- The client-chunk asset handler instance (src/lib/index.js lines 93-98):
prefix predicate on `/client/`, javascript content type, immutable cache
policy, resolver `pathname => asset_cache.client.chunks[pathname]`. -/
def client_chunks_handler (chunks : List (String × String)) : AssetOpts String :=
  { filter := fun pathname => js_starts_with pathname.data ("/client/").data,
    type := ("application/javascript"),
    cache := ("max-age=31536000"),
    fn := fun pathname => js_get chunks pathname }

end Sapper

/-- C9: an asset handler whose predicate rejects the pathname calls
`next()` without modifying the response; one whose predicate accepts it sets
the `Content-Type` and `Cache-Control` headers to the fixed configured
values, leaves the status code untouched and ends the response with
`resolver(pathname)` as the full body, terminating the chain. -/
theorem sapper_C9_asset_handler_contract {β : Type} (opts : Sapper.AssetOpts β)
    (pathname : String) (res : Sapper.Res β) :
    (opts.filter pathname = false →
        Sapper.get_asset_handler opts pathname res = (res, true)) ∧
      (opts.filter pathname = true →
        (Sapper.get_asset_handler opts pathname res).2 = false ∧
          (Sapper.get_asset_handler opts pathname res).1.statusCode = res.statusCode ∧
          Sapper.js_get (Sapper.get_asset_handler opts pathname res).1.headers
              ("Content-Type") = some opts.type ∧
          Sapper.js_get (Sapper.get_asset_handler opts pathname res).1.headers
              ("Cache-Control") = some opts.cache ∧
          (Sapper.get_asset_handler opts pathname res).1.body = opts.fn pathname ∧
          (Sapper.get_asset_handler opts pathname res).1.ended = true) := by
  constructor
  · intro hf
    simp [Sapper.get_asset_handler, hf]
  · intro hf
    simp [Sapper.get_asset_handler, hf, Sapper.res_end, Sapper.set_header, Sapper.js_get]

/-- C9 witness — the spec's concrete scenario: `GET /client/app.abcd1234.js`
with that path present in `client.chunks` is served with status 200,
`Content-Type: application/javascript`, `Cache-Control: max-age=31536000`
and a body equal to the cached bytes, and the chain terminates. -/
theorem sapper_C9_witness :
    (Sapper.get_asset_handler
        (Sapper.client_chunks_handler [(("/client/app.abcd1234.js"), ("BYTES"))])
        ("/client/app.abcd1234.js") Sapper.fresh_res).2 = false ∧
      (Sapper.get_asset_handler
        (Sapper.client_chunks_handler [(("/client/app.abcd1234.js"), ("BYTES"))])
        ("/client/app.abcd1234.js") Sapper.fresh_res).1.statusCode = 200 ∧
      Sapper.js_get
        (Sapper.get_asset_handler
          (Sapper.client_chunks_handler [(("/client/app.abcd1234.js"), ("BYTES"))])
          ("/client/app.abcd1234.js") Sapper.fresh_res).1.headers ("Content-Type")
        = some ("application/javascript") ∧
      Sapper.js_get
        (Sapper.get_asset_handler
          (Sapper.client_chunks_handler [(("/client/app.abcd1234.js"), ("BYTES"))])
          ("/client/app.abcd1234.js") Sapper.fresh_res).1.headers ("Cache-Control")
        = some ("max-age=31536000") ∧
      (Sapper.get_asset_handler
        (Sapper.client_chunks_handler [(("/client/app.abcd1234.js"), ("BYTES"))])
        ("/client/app.abcd1234.js") Sapper.fresh_res).1.body = some ("BYTES") := by
  have h := (sapper_C9_asset_handler_contract
    (Sapper.client_chunks_handler [(("/client/app.abcd1234.js"), ("BYTES"))])
    ("/client/app.abcd1234.js") Sapper.fresh_res).2 (by decide)
  refine ⟨h.1, h.2.1, h.2.2.1, h.2.2.2.1, ?_⟩
  rw [h.2.2.2.2.1]
  decide

/-- C8 counterexample: a request for `/client/missing.js` — accepted by the
chunk handler's prefix predicate but absent from `client.chunks` — does NOT
fall through: `next()` is not called, the response is ended with the asset
headers set and an empty (`undefined`) body.  This refutes the claim that
such a request falls through to the Not-Found renderer. -/
theorem sapper_C8_counterexample :
    (Sapper.get_asset_handler (Sapper.client_chunks_handler [])
        ("/client/missing.js") Sapper.fresh_res).2 = false ∧
      (Sapper.get_asset_handler (Sapper.client_chunks_handler [])
        ("/client/missing.js") Sapper.fresh_res).1.ended = true ∧
      (Sapper.get_asset_handler (Sapper.client_chunks_handler [])
        ("/client/missing.js") Sapper.fresh_res).1.body = none := by
  decide

/-- C8 (amended): a request whose pathname satisfies an asset handler's
predicate but is absent from the corresponding asset-cache mapping does not
fall through to the Not-Found renderer: the handler terminates the chain —
`next()` is never called — ending the response with the configured
`Content-Type` and `Cache-Control` headers, the default 200 status and an
empty (`undefined`) body. -/
theorem sapper_C8_asset_cache_miss (chunks : List (String × String))
    (pathname : String) (res : Sapper.Res String) :
    (Sapper.js_starts_with pathname.data ("/client/").data = true →
      Sapper.js_get chunks pathname = none →
        (Sapper.get_asset_handler (Sapper.client_chunks_handler chunks)
            pathname res).2 = false ∧
          (Sapper.get_asset_handler (Sapper.client_chunks_handler chunks)
            pathname res).1.ended = true ∧
          (Sapper.get_asset_handler (Sapper.client_chunks_handler chunks)
            pathname res).1.body = none ∧
          (Sapper.get_asset_handler (Sapper.client_chunks_handler chunks)
            pathname res).1.statusCode = res.statusCode ∧
          Sapper.js_get (Sapper.get_asset_handler
              (Sapper.client_chunks_handler chunks) pathname res).1.headers
            ("Content-Type") = some ("application/javascript") ∧
          Sapper.js_get (Sapper.get_asset_handler
              (Sapper.client_chunks_handler chunks) pathname res).1.headers
            ("Cache-Control") = some ("max-age=31536000")) := by
  intro hf hmiss
  have h := (sapper_C9_asset_handler_contract
    (Sapper.client_chunks_handler chunks) pathname res).2 hf
  have hbody : (Sapper.get_asset_handler (Sapper.client_chunks_handler chunks)
      pathname res).1.body = none := by
    rw [h.2.2.2.2.1]
    exact hmiss
  exact ⟨h.1, h.2.2.2.2.2, hbody, h.2.1, h.2.2.1, h.2.2.2.1⟩

/-- C8 witness: the amended behavior at the concrete cache miss — one chunk
cached, a different `/client/`-prefixed pathname requested. -/
theorem sapper_C8_witness :
    (Sapper.get_asset_handler
        (Sapper.client_chunks_handler [(("/client/app.abcd1234.js"), ("BYTES"))])
        ("/client/other.js") Sapper.fresh_res).2 = false ∧
      (Sapper.get_asset_handler
        (Sapper.client_chunks_handler [(("/client/app.abcd1234.js"), ("BYTES"))])
        ("/client/other.js") Sapper.fresh_res).1.ended = true ∧
      (Sapper.get_asset_handler
        (Sapper.client_chunks_handler [(("/client/app.abcd1234.js"), ("BYTES"))])
        ("/client/other.js") Sapper.fresh_res).1.body = none := by
  have h := sapper_C8_asset_cache_miss [(("/client/app.abcd1234.js"), ("BYTES"))]
    ("/client/other.js") Sapper.fresh_res (by decide) (by decide)
  exact ⟨h.1, h.2.1, h.2.2.1⟩

namespace Sapper

/-! ## Error renderer — the catch block of `find_route`
(src/lib/index.js lines 211-219)

Any exception raised during route dispatch, preload or render reaches the
single `.catch(err => …)`: it sets `res.statusCode = 500` and renders the
500 template with
`title: (err && err.name) || 'Internal server error'`,
`error: escape_html(err && (err.details || err.message || err) || 'Unknown error')`,
`stack: err && err.stack.split('\n').slice(1).join('\n')`.
The `err &&` guards tolerate a falsy thrown value, but a truthy error value
without a `stack` property makes `err.stack.split` itself throw a TypeError
inside the catch callback: `res.end` is then never reached (the status code
has already been assigned).  A thrown error is modelled by its JavaScript
truthiness, its optional string-valued `details`/`message`/`name`/`stack`
properties (JavaScript `||` also skips a present-but-empty string, which is
falsy), and its string coercion. -/

structure JsError where
  truthy : Bool
  details : Option String
  message : Option String
  errName : Option String
  stack : Option String
  coerced : String

/-- JavaScript `||` on an optional string property: an absent property and
an empty string are both falsy. -/
def js_truthy_opt (o : Option String) : Option String :=
  match o with
  | some s => if s.isEmpty then none else some s
  | none => none

/-- The value of `err.details || err.message || err` for a truthy `err`
(the final fallback coerces the error value itself to a string). -/
def err_detail (e : JsError) : String :=
  match js_truthy_opt e.details with
  | some d => d
  | none =>
    match js_truthy_opt e.message with
    | some m => m
    | none => e.coerced

/-- The value of `err.name || 'Internal server error'` for a truthy `err`. -/
def err_title (e : JsError) : String :=
  match js_truthy_opt e.errName with
  | some n => n
  | none => ("Internal server error")

/-- Model of the npm `escape-html` replacement table for one character. -/
def escape_char (c : Char) : List Char :=
  if c = '&' then ['&', 'a', 'm', 'p', ';']
  else if c = '"' then ['&', 'q', 'u', 'o', 't', ';']
  else if c = '\x27' then ['&', '#', '3', '9', ';']
  else if c = '<' then ['&', 'l', 't', ';']
  else if c = '>' then ['&', 'g', 't', ';']
  else [c]

/-- Model of `escape-html` (an external collaborator of the source): every
HTML-significant character is replaced by its entity. -/
def escape_html (s : String) : String :=
  String.mk (s.data.flatMap escape_char)

/-- Character-level model of `String.prototype.split(sep)` for a one-character
separator. -/
def js_split (sep : Char) : List Char → List (List Char)
  | [] => [[]]
  | c :: rest =>
    if c = sep then [] :: js_split sep rest
    else
      match js_split sep rest with
      | [] => [[c]]
      | g :: gs => (c :: g) :: gs

/-- Character-level model of `Array.prototype.join(sep)` for a one-character
separator. -/
def js_join (sep : Char) : List (List Char) → List Char
  | [] => []
  | g :: gs =>
    match gs with
    | [] => g
    | _ :: _ => g ++ sep :: js_join sep gs

/-- Model of `stack.split('\n').slice(1).join('\n')`. -/
def strip_first_line (s : List Char) : List Char :=
  js_join '\n' ((js_split '\n' s).drop 1)

/-- The rendered 500 document, modelled from the spec as the record of
fields the error template receives (`templates.render` and the template
files are not under the staged sources). -/
structure ErrorPage where
  title : String
  url : String
  error : String
  stack : Option String

/-- The response as the catch block leaves it: `body = none` means the catch
callback itself threw before `res.end` (the status code had already been
assigned). -/
structure ErrResponse where
  statusCode : Nat
  body : Option ErrorPage

/-- Model of the catch block of `find_route`: a falsy error renders the
generic 500 page; a truthy error with a stack renders the full 500 page with
the first stack line stripped; a truthy error without a stack makes
`err.stack.split` throw, so no body is ever written. -/
def catch_handler (e : JsError) (url : String) : ErrResponse :=
  if e.truthy then
    match e.stack with
    | some s =>
      { statusCode := 500,
        body := some { title := err_title e,
                       url := url,
                       error := escape_html (err_detail e),
                       stack := some (String.mk (strip_first_line s.data)) } }
    | none => { statusCode := 500, body := none }
  else
    { statusCode := 500,
      body := some { title := ("Internal server error"),
                     url := url,
                     error := escape_html (("Unknown error")),
                     stack := none } }

theorem escape_char_no_angle (c0 c : Char) (h : c ∈ escape_char c0) :
    (c = '<' → False) ∧ (c = '>' → False) := by
  unfold escape_char at h
  split_ifs at h with h1 h2 h3 h4 h5
  · exact ⟨fun hc => by subst hc; exact absurd h (by decide),
      fun hc => by subst hc; exact absurd h (by decide)⟩
  · exact ⟨fun hc => by subst hc; exact absurd h (by decide),
      fun hc => by subst hc; exact absurd h (by decide)⟩
  · exact ⟨fun hc => by subst hc; exact absurd h (by decide),
      fun hc => by subst hc; exact absurd h (by decide)⟩
  · exact ⟨fun hc => by subst hc; exact absurd h (by decide),
      fun hc => by subst hc; exact absurd h (by decide)⟩
  · exact ⟨fun hc => by subst hc; exact absurd h (by decide),
      fun hc => by subst hc; exact absurd h (by decide)⟩
  · rw [List.mem_singleton] at h
    subst h
    exact ⟨h4, h5⟩

theorem escape_html_no_angle (s : String) (c : Char) (h : c ∈ (escape_html s).data) :
    (c = '<' → False) ∧ (c = '>' → False) := by
  have h' : c ∈ s.data.flatMap escape_char := h
  obtain ⟨c0, _, hc⟩ := List.mem_flatMap.mp h'
  exact escape_char_no_angle c0 c hc

theorem js_split_ne_nil (sep : Char) (l : List Char) : js_split sep l ≠ [] := by
  cases l with
  | nil => simp [js_split]
  | cons c rest =>
    by_cases hc : c = sep
    · simp [js_split, hc]
    · simp only [js_split, if_neg hc]
      cases js_split sep rest <;> simp

theorem js_join_split (sep : Char) (l : List Char) :
    js_join sep (js_split sep l) = l := by
  induction l with
  | nil => rfl
  | cons c rest ih =>
    by_cases hc : c = sep
    · subst hc
      have h1 : js_split c (c :: rest) = [] :: js_split c rest := by
        simp [js_split]
      rw [h1]
      cases hr : js_split c rest with
      | nil => exact absurd hr (js_split_ne_nil c rest)
      | cons g gs =>
        rw [hr] at ih
        simp only [js_join, List.nil_append]
        exact congrArg (c :: ·) ih
    · cases hr : js_split sep rest with
      | nil => exact absurd hr (js_split_ne_nil sep rest)
      | cons g gs =>
        rw [hr] at ih
        have h1 : js_split sep (c :: rest) = (c :: g) :: gs := by
          simp only [js_split, if_neg hc, hr]
        rw [h1]
        cases gs with
        | nil =>
          simp only [js_join] at ih ⊢
          rw [ih]
        | cons g2 gs2 =>
          simp only [js_join] at ih ⊢
          rw [List.cons_append]
          exact congrArg (c :: ·) ih

theorem js_split_sepfree (sep : Char) (a b : List Char) (ha : (sep ∈ a) → False) :
    js_split sep (a ++ sep :: b) = a :: js_split sep b := by
  induction a with
  | nil => simp [js_split]
  | cons c a2 ih =>
    have hc : ¬ c = sep := fun h => ha (h ▸ List.mem_cons_self c a2)
    have ih' := ih fun h => ha (List.mem_cons_of_mem c h)
    simp [js_split, if_neg hc, ih']

/-- The modelled `split('\n').slice(1).join('\n')` really removes the first
line: with a newline-free first line `a`, what remains is exactly `b`. -/
theorem strip_first_line_removes_first (a b : List Char) (ha : ('\n' ∈ a) → False) :
    strip_first_line (a ++ '\n' :: b) = b := by
  unfold strip_first_line
  rw [js_split_sepfree '\n' a b ha]
  simpa using js_join_split '\n' b

end Sapper

namespace Sapper

/-- A concrete thrown value that is truthy but has no `stack` property (a
thrown string, with HTML-significant characters in its coerced form): the
catch callback's `err.stack.split` throws on it. -/
def err_no_stack_c6 : JsError :=
  { truthy := true,
    details := none,
    message := none,
    errName := none,
    stack := none,
    coerced := ("<b>boom</b>") }

/-- A concrete truthy error carrying details, name and a stack. -/
def err_with_stack_c6 : JsError :=
  { truthy := true,
    details := some ("x < y & z"),
    message := some ("ignored"),
    errName := some ("TypeError"),
    stack := some ("TypeError: x\n  at handler\n  at run"),
    coerced := ("TypeError: x") }

/-- A second concrete truthy stackless error (a thrown plain object with a
`message` but no `stack`). -/
def err_no_stack_c7 : JsError :=
  { truthy := true,
    details := none,
    message := some ("kaboom"),
    errName := none,
    stack := none,
    coerced := ("[object Object]") }

/-- A concrete truthy error with a three-line stack. -/
def err_with_stack_c7 : JsError :=
  { truthy := true,
    details := none,
    message := some ("m"),
    errName := some ("Error"),
    stack := some ("Error: m\n  at foo\n  at bar"),
    coerced := ("Error: m") }

end Sapper

/-- C6 (amended): the catch block always assigns status 500, and for every
exception that is falsy or carries a `stack` property the rendered 500
page's error field is exactly the HTML-escaped detail message — `err.details`
preferred, then `err.message`, then the error value itself (`err_detail`),
with `Unknown error` for a falsy exception — and that field never contains a
raw `<` or `>`; a truthy exception without a `stack` property instead
crashes the catch callback itself (`err.stack.split` throws), so no body is
ever written. -/
theorem sapper_C6_error_page_escaped (e : Sapper.JsError) (url : String) :
    (Sapper.catch_handler e url).statusCode = 500 ∧
      ((e.truthy = false ∨ (∃ s, e.stack = some s)) →
        ∃ p, (Sapper.catch_handler e url).body = some p ∧
          p.error = Sapper.escape_html
              (if e.truthy = true then Sapper.err_detail e else ("Unknown error")) ∧
          ∀ c ∈ p.error.data, (c = '<' → False) ∧ (c = '>' → False)) := by
  constructor
  · cases ht : e.truthy
    · simp [Sapper.catch_handler, ht]
    · cases hs : e.stack <;> simp [Sapper.catch_handler, ht, hs]
  · intro hcase
    cases ht : e.truthy
    · refine ⟨{ title := ("Internal server error"),
                url := url,
                error := Sapper.escape_html (("Unknown error")),
                stack := none },
        by simp [Sapper.catch_handler, ht], by simp [ht], ?_⟩
      intro c hc
      exact Sapper.escape_html_no_angle _ c hc
    · rcases hcase with hf | ⟨s, hs⟩
      · rw [ht] at hf
        cases hf
      · refine ⟨{ title := Sapper.err_title e,
                  url := url,
                  error := Sapper.escape_html (Sapper.err_detail e),
                  stack := some (String.mk (Sapper.strip_first_line s.data)) },
          by simp [Sapper.catch_handler, ht, hs], by simp [ht], ?_⟩
        intro c hc
        exact Sapper.escape_html_no_angle _ c hc

/-- C6 counterexample: the claim as stated fails — for the truthy thrown
value without a `stack` property, the catch callback itself throws, so the
response body is never written and in particular contains no escaped
message. -/
theorem sapper_C6_counterexample :
    (Sapper.catch_handler Sapper.err_no_stack_c6 ("/admin")).body = none ∧
      ((∃ p, (Sapper.catch_handler Sapper.err_no_stack_c6 ("/admin")).body = some p)
        → False) := by
  refine ⟨rfl, ?_⟩
  rintro ⟨p, hp⟩
  rw [show (Sapper.catch_handler Sapper.err_no_stack_c6 ("/admin")).body = none from rfl]
    at hp
  exact Option.noConfusion hp

/-- C6 witness: the amended statement at a concrete error whose `details`
holds HTML-significant characters — the page's error field is the escaped
details and holds no angle bracket. -/
theorem sapper_C6_witness :
    (Sapper.catch_handler Sapper.err_with_stack_c6 ("/u")).statusCode = 500 ∧
      ∃ p, (Sapper.catch_handler Sapper.err_with_stack_c6 ("/u")).body = some p ∧
        p.error = Sapper.escape_html
            (if Sapper.err_with_stack_c6.truthy = true
              then Sapper.err_detail Sapper.err_with_stack_c6 else ("Unknown error")) ∧
        ∀ c ∈ p.error.data, (c = '<' → False) ∧ (c = '>' → False) :=
  ⟨(sapper_C6_error_page_escaped Sapper.err_with_stack_c6 ("/u")).1,
   (sapper_C6_error_page_escaped Sapper.err_with_stack_c6 ("/u")).2
     (Or.inr ⟨("TypeError: x\n  at handler\n  at run"), rfl⟩)⟩

/-- C7 (amended): for every truthy error with a `stack` the 500 page's
stack field is the stack trace with its first line removed (the conjunct on
`strip_first_line` makes "first line removed" precise); a falsy error value
is tolerated gracefully — a 500 page is produced (with a falsy stack
field) — but a truthy error lacking a `stack` property makes the error
renderer itself throw, so no 500 page body is produced. -/
theorem sapper_C7_error_stack_field (e : Sapper.JsError) (url : String) :
    (∀ s, e.truthy = true → e.stack = some s →
        ∃ p, (Sapper.catch_handler e url).body = some p ∧
          p.stack = some (String.mk (Sapper.strip_first_line s.data))) ∧
      (e.truthy = false →
        (Sapper.catch_handler e url).statusCode = 500 ∧
          ∃ p, (Sapper.catch_handler e url).body = some p ∧ p.stack = none) ∧
      (e.truthy = true → e.stack = none →
        (Sapper.catch_handler e url).body = none) ∧
      (∀ a b : List Char, (('\n' ∈ a) → False) →
        Sapper.strip_first_line (a ++ '\n' :: b) = b) := by
  refine ⟨fun s ht hs => ?_, fun ht => ?_, fun ht hs => ?_,
    fun a b ha => Sapper.strip_first_line_removes_first a b ha⟩
  · exact ⟨{ title := Sapper.err_title e,
             url := url,
             error := Sapper.escape_html (Sapper.err_detail e),
             stack := some (String.mk (Sapper.strip_first_line s.data)) },
      by simp [Sapper.catch_handler, ht, hs], rfl⟩
  · exact ⟨by simp [Sapper.catch_handler, ht],
      { title := ("Internal server error"),
        url := url,
        error := Sapper.escape_html (("Unknown error")),
        stack := none },
      by simp [Sapper.catch_handler, ht], rfl⟩
  · simp [Sapper.catch_handler, ht, hs]

/-- C7 counterexample: the claim as stated fails — an error object lacking a
`stack` property is not tolerated gracefully: for this concrete truthy
stackless error the catch callback throws and no 500 page body is
produced. -/
theorem sapper_C7_counterexample :
    (Sapper.catch_handler Sapper.err_no_stack_c7 ("/y")).body = none ∧
      ((∃ p, (Sapper.catch_handler Sapper.err_no_stack_c7 ("/y")).body = some p)
        → False) := by
  refine ⟨rfl, ?_⟩
  rintro ⟨p, hp⟩
  rw [show (Sapper.catch_handler Sapper.err_no_stack_c7 ("/y")).body = none from rfl]
    at hp
  exact Option.noConfusion hp

/-- C7 witness: at a concrete error with a three-line stack, the page's
stack field is the last two lines — the first line is stripped. -/
theorem sapper_C7_witness :
    (∃ p, (Sapper.catch_handler Sapper.err_with_stack_c7 ("/w")).body = some p ∧
        p.stack = some (String.mk
          (Sapper.strip_first_line ("Error: m\n  at foo\n  at bar").data))) ∧
      String.mk (Sapper.strip_first_line ("Error: m\n  at foo\n  at bar").data)
        = ("  at foo\n  at bar") :=
  ⟨(sapper_C7_error_stack_field Sapper.err_with_stack_c7 ("/w")).1
      ("Error: m\n  at foo\n  at bar") rfl rfl,
   by decide⟩

/-- C3 witness: concrete chains — a handler that proceeds followed by one
that terminates yields the trace started 0, proceeded 0, started 1 with no
fallback; a single proceeding handler exhausts the cursor and fires the
fallback exactly once. -/
theorem sapper_C3_witness :
    Sapper.compose_handlers [fun s : Nat => some (s + 1), fun _ : Nat => none] 0
        = ([Sapper.ChainEvent.started 0, Sapper.ChainEvent.proceeded 0,
            Sapper.ChainEvent.started 1], false) ∧
      Sapper.compose_handlers [fun s : Nat => some s] 0
        = ([Sapper.ChainEvent.started 0, Sapper.ChainEvent.proceeded 0,
            Sapper.ChainEvent.fellback], true) :=
  ⟨rfl, rfl⟩

/-- C10 witness: concrete urls — a query string after the first `?` is
stripped (even when it contains another `?`), a url ending in its only `?`
is left unchanged, and a query-free url is left unchanged. -/
theorem sapper_C10_witness :
    Sapper.strip_query (("/a?x=1&y=2?z").data) = (("/a").data) ∧
      Sapper.strip_query (("/a?").data) = (("/a?").data) ∧
      Sapper.strip_query (("/a/b").data) = (("/a/b").data) := by
  refine ⟨?_, ?_, ?_⟩
  · have h := (sapper_C10_strip_query_first_question (("/a").data)
      (("x=1&y=2?z").data) { url := ("/a"), pathname := none }).1 (by decide)
    have hsplit : (("/a?x=1&y=2?z").data)
        = (("/a").data) ++ '?' :: (("x=1&y=2?z").data) := by decide
    rw [hsplit, h]
    decide
  · have h := (sapper_C10_strip_query_first_question (("/a").data)
      ([] : List Char) { url := ("/a"), pathname := none }).1 (by decide)
    have hsplit : (("/a?").data) = (("/a").data) ++ '?' :: ([] : List Char) := by decide
    rw [hsplit, h]
    decide
  · exact (sapper_C10_strip_query_first_question (("/a/b").data)
      ([] : List Char) { url := ("/a/b"), pathname := none }).2.1 (by decide)
